import Mathlib

/-!
# Verification of the reddit-e2e data-acquisition and context-search pipeline

Shallow embedding of the core components of the repository:

* `RateLimiter` — `src/lib/promptStore.ts` (IP-based rate limiter)
* `SearchCache` — in-memory TTL cache for search results
* `fetchRedditPosts` / `fetchWithRetry` / `getPostDetails` — Reddit API helper
* `generateSearchQueries` / `filterPostsByContext` — AI helpers in `src/lib/ai.ts`
* the fan-out merge in `useContextSearch.search`

JavaScript `Map` objects are embedded as association lists with unique keys:
`Map.prototype.set` replaces the value of an existing key in place (keeping
its insertion position), `Map.prototype.delete` removes the entry, and lookup
finds the entry by key.  Times (`Date.now()` values) are modelled as natural
numbers of milliseconds; the theorems that depend on elapsed time carry the
monotone-clock hypothesis (`earlier ≤ later`) explicitly.
-/

/-- Embeds `Map.prototype.get` on an association list: first binding of the key. -/
def lookupKey {β : Type} (m : List (String × β)) (k : String) : Option β :=
  List.lookup k m

/-- Embeds `Map.prototype.set`: replace the binding of `k` in place if present,
otherwise append a new binding at the end (JavaScript `Map` keeps insertion
order and holds at most one binding per key). -/
def setKey {β : Type} : List (String × β) → String → β → List (String × β)
  | [], k, v => [(k, v)]
  | kv :: rest, k, v => if kv.1 == k then (k, v) :: rest else kv :: setKey rest k v

/-- Embeds `Map.prototype.delete`: remove the binding(s) of `k`. -/
def eraseKey {β : Type} (m : List (String × β)) (k : String) : List (String × β) :=
  m.filter (fun kv => kv.1 != k)

/-! ## Rate Limiter (`src/src/lib/promptStore.ts`, `RateLimiter.check`) -/

/-- Per-identity rate-limit state (`RateLimitEntry` in the source). -/
structure RateLimitEntry where
  lastRequest : Nat
  requestCount : Nat
deriving Repr, DecidableEq

/-- The rate limiter's `limits` map: identity (IP string) to entry. -/
def RateLimiterState := List (String × RateLimitEntry)

/-- Result of `RateLimiter.check`: `{ allowed: boolean, retryAfter?: number }`. -/
structure CheckResult where
  allowed : Bool
  retryAfter : Option Nat
deriving Repr, DecidableEq

/-- Embeds `RateLimiter.check(ip)` from `src/src/lib/promptStore.ts`, with the
implicit `Date.now()` passed explicitly as `now` and the mutation of the
`limits` map returned as the second component. -/
def RateLimiter.check (windowMs maxRequests : Nat) (limits : RateLimiterState)
    (ip : String) (now : Nat) : CheckResult × RateLimiterState :=
  match lookupKey limits ip with
  | none => (⟨true, none⟩, setKey limits ip ⟨now, 1⟩)
  | some entry =>
    let elapsed := now - entry.lastRequest
    if windowMs ≤ elapsed then
      -- Window has passed, reset
      (⟨true, none⟩, setKey limits ip ⟨now, 1⟩)
    else if entry.requestCount < maxRequests then
      (⟨true, none⟩, setKey limits ip ⟨entry.lastRequest, entry.requestCount + 1⟩)
    else
      -- Rate limited
      (⟨false, some (windowMs - elapsed)⟩, limits)

/-- The singleton `rateLimiter = new RateLimiter(2000, 1)`: window 2000 ms,
one request per window. -/
def rateLimiter.check (limits : RateLimiterState) (ip : String) (now : Nat) :
    CheckResult × RateLimiterState :=
  RateLimiter.check 2000 1 limits ip now

/-! ## Data model (`src/src/types/index.ts`) -/

/-- Embeds `RedditPost` from `src/src/types/index.ts`.  The source stores `created`
as an ISO date string produced by `new Date(ms).toISOString()`; it is
modelled by the underlying millisecond instant. -/
structure RedditPost where
  id : String
  title : String
  upvotes : Int
  comments : Int
  link : String
  subreddit : String
  created : Int
  author : String
deriving Repr, DecidableEq

/-- Embeds `SearchResponse` from `src/src/types/index.ts` (`cacheAge?: number` is an
optional field). -/
structure SearchResponse where
  posts : List RedditPost
  cached : Bool
  cacheAge : Option Nat
  query : String
  sort : String
  totalResults : Int
deriving Repr, DecidableEq

/-! ## Result Cache (`SearchCache`, `src/lib/searchCache.ts`) -/

/-- A cache entry: stored response plus creation instant (`Date.now()`). -/
structure CacheEntry where
  data : SearchResponse
  timestamp : Nat
deriving Repr, DecidableEq

/-- The `SearchCache`'s private `Map<string, CacheEntry>`. -/
def SearchCacheState := List (String × CacheEntry)

/-- The constructor default `ttlMs = 5 * 60 * 1000` (5 minutes). -/
def defaultTtlMs : Nat := 5 * 60 * 1000

/-- Embeds `SearchCache.key(query, sort)`: the template string
`${query.toLowerCase().trim()}-${sort}`.  No other argument participates. -/
def SearchCache.key (query sort : String) : String :=
  query.toLower.trim ++ "-" ++ sort

/-- Embeds `SearchCache.get(query, sort)`, with `Date.now()` passed as `now` and the
mutation of the map (lazy eviction on expiry) returned as second component. -/
def SearchCache.get (ttlMs : Nat) (cache : SearchCacheState) (query sort : String)
    (now : Nat) : Option SearchResponse × SearchCacheState :=
  let k := SearchCache.key query sort
  match lookupKey cache k with
  | none => (none, cache)
  | some entry =>
    let age := now - entry.timestamp
    if ttlMs < age then
      (none, eraseKey cache k)
    else
      -- Return cached data with cache metadata
      (some { entry.data with cached := true, cacheAge := some (age / 1000) }, cache)

/-- Embeds `SearchCache.set(query, sort, data)`, with `Date.now()` passed as `now`. -/
def SearchCache.set (cache : SearchCacheState) (query sort : String)
    (data : SearchResponse) (now : Nat) : SearchCacheState :=
  setKey cache (SearchCache.key query sort)
    ⟨{ data with cached := false, cacheAge := some 0 }, now⟩

/-! ## Post Fetcher (`fetchRedditPosts`, `src/lib/reddit.ts`) -/

/-- The `data` of a `RedditApiChild` (one upstream listing item). -/
structure RedditApiChildData where
  id : String
  title : String
  score : Int
  num_comments : Int
  permalink : String
  subreddit_name_prefixed : String
  created_utc : Int
  author : String
deriving Repr, DecidableEq

/-- One upstream response page (`RedditApiResponse.data`): items plus the
next-page cursor. -/
structure RedditPage where
  children : List RedditApiChildData
  after : Option String
deriving Repr, DecidableEq

/-- The field mapping applied to each child inside the fetch loop
(`allPosts.push({...})`): permalink combined with the canonical origin,
`created_utc` seconds converted to a millisecond instant. -/
def normalizeChild (c : RedditApiChildData) : RedditPost :=
  { id := c.id
    title := c.title
    upvotes := c.score
    comments := c.num_comments
    link := "https://www.reddit.com" ++ c.permalink
    subreddit := c.subreddit_name_prefixed
    created := c.created_utc * 1000
    author := c.author }

/-- The manual filter for the custom `15d` time range: drop children whose
`created_utc * 1000` lies before `Date.now() - 15 days`; every other time
bucket keeps all children. -/
def keepForTime (time : Option String) (nowMs : Int) (c : RedditApiChildData) : Bool :=
  match time with
  | some t =>
    if t = "15d" then decide (nowMs - 15 * 24 * 60 * 60 * 1000 ≤ c.created_utc * 1000)
    else true
  | none => true

/-- Embeds `const maxPages = 4`. -/
def maxPages : Nat := 4

/-- The pagination loop of `fetchRedditPosts`: `pages` are the successive
upstream responses (an exhausted list models a page-fetch failure, which
breaks the loop and keeps the partial accumulation).  A page with no
children breaks; after accumulating, a missing cursor or an accumulation of
at least 100 posts breaks. -/
def fetchPages (time : Option String) (nowMs : Int) :
    List RedditPage → Nat → List RedditPost → List RedditPost
  | _, 0, acc => acc
  | [], _ + 1, acc => acc
  | page :: rest, budget + 1, acc =>
    if page.children.isEmpty then acc
    else
      let acc' := acc ++ (page.children.filter (keepForTime time nowMs)).map normalizeChild
      if page.after = none ∨ 100 ≤ acc'.length then acc'
      else fetchPages time nowMs rest budget acc'

/-- The comparator `(a, b) => b.upvotes - a.upvotes` of the final sort:
descending by score. -/
def byScoreDesc (a b : RedditPost) : Prop := b.upvotes ≤ a.upvotes

instance : DecidableRel byScoreDesc := fun a b =>
  inferInstanceAs (Decidable (b.upvotes ≤ a.upvotes))

instance : IsTotal RedditPost byScoreDesc :=
  ⟨fun a b => le_total b.upvotes a.upvotes⟩

instance : IsTrans RedditPost byScoreDesc :=
  ⟨fun _ _ _ hab hbc => le_trans hbc hab⟩

/-- Embeds `fetchRedditPosts(keywords, sort, time)`: aggregate up to `maxPages`
upstream pages, then `allPosts.sort((a, b) => b.upvotes - a.upvotes).slice(0, 100)`.
`keywords` and `sort` only shape the upstream request, which is modelled by
the `pages` the upstream returns; JavaScript's `Array.prototype.sort` is a
stable sort and is embedded as the stable `List.insertionSort`. -/
def fetchRedditPosts (pages : List RedditPage) (time : Option String) (nowMs : Int) :
    List RedditPost :=
  (List.insertionSort byScoreDesc (fetchPages time nowMs pages maxPages [])).take 100

/-! ## Backoff-Retry Executor (`fetchWithRetry`, `src/lib/reddit.ts`) -/

/-- The observable outcome of one `fetch` attempt inside `fetchWithRetry`:
an `ok` response, a non-2xx status, an abort-on-timeout, or another network
error. -/
inductive FetchOutcome where
  | ok
  | status (code : Nat)
  | timeout
  | netErr
deriving Repr, DecidableEq

/-- What `fetchWithRetry` does overall: return the response of the
successful attempt, or propagate a failure. -/
inductive FetchResult where
  | success (attempt : Nat)
  | failure (msg : String)
deriving Repr, DecidableEq

/-- The retryable status classes: `res.status === 429 || res.status >= 500`. -/
def retryableStatus (s : Nat) : Bool := s == 429 || 500 ≤ s

/-- The attempt loop of `fetchWithRetry` (`for (let attempt = 0; attempt <
maxRetries; attempt++)`), with the outcome of each attempt supplied by
`outcomes` and the `setTimeout` waits between attempts collected in the
returned list.  A retried 429/5xx waits `Math.pow(2, attempt) * 1500` ms.
A non-retryable status falls to `throw new Error('Reddit API error: ...')`
INSIDE the try block, which the function's own catch receives: being no
`AbortError`, it is rethrown only when `attempt === maxRetries - 1` and
otherwise retried after the catch's flat 2000 ms wait — as are timeouts and
other network errors (each rethrown on the last attempt).  `fuel` is the
number of loop iterations left (`maxRetries - attempt`). -/
def fetchWithRetryGo (outcomes : Nat → FetchOutcome) (maxRetries : Nat) :
    Nat → Nat → FetchResult × List Nat
  | 0, _ => (.failure "Failed to fetch after retries", [])
  | fuel + 1, attempt =>
    match outcomes attempt with
    | .ok => (.success attempt, [])
    | .status s =>
      if retryableStatus s ∧ attempt < maxRetries - 1 then
        ((fetchWithRetryGo outcomes maxRetries fuel (attempt + 1)).1,
         (2 ^ attempt * 1500) :: (fetchWithRetryGo outcomes maxRetries fuel (attempt + 1)).2)
      else if attempt = maxRetries - 1 then
        (.failure "Reddit API error", [])
      else
        ((fetchWithRetryGo outcomes maxRetries fuel (attempt + 1)).1,
         2000 :: (fetchWithRetryGo outcomes maxRetries fuel (attempt + 1)).2)
    | .timeout =>
      if attempt < maxRetries - 1 then
        ((fetchWithRetryGo outcomes maxRetries fuel (attempt + 1)).1,
         2000 :: (fetchWithRetryGo outcomes maxRetries fuel (attempt + 1)).2)
      else
        (.failure "Reddit request timed out after multiple retries", [])
    | .netErr =>
      if attempt = maxRetries - 1 then
        (.failure "network error", [])
      else
        ((fetchWithRetryGo outcomes maxRetries fuel (attempt + 1)).1,
         2000 :: (fetchWithRetryGo outcomes maxRetries fuel (attempt + 1)).2)

/-- Embeds `fetchWithRetry(url, options, maxRetries)`, starting at attempt 0. -/
def fetchWithRetry (outcomes : Nat → FetchOutcome) (maxRetries : Nat) :
    FetchResult × List Nat :=
  fetchWithRetryGo outcomes maxRetries maxRetries 0

/-- The default `maxRetries = 3` used by the paginated list path. -/
def defaultMaxRetries : Nat := 3

/-- The constant `getPostDetails` passes: `2 // Fewer retries for comments`. -/
def detailMaxRetries : Nat := 2

/-! ## Fan-out Aggregator merge (`useContextSearch.search`, `src/src/types/index.ts`) -/

/-- The merge in `useContextSearch.search`:
`nestedPosts.flat()` followed by
`Array.from(new Map(allPosts.map(p => [p.id, p])).values())` — the `Map`
constructor runs `set` for each `[id, post]` pair in order. -/
def mergeById (nested : List (List RedditPost)) : List RedditPost :=
  (nested.flatten.foldl (fun m p => setKey m p.id p) []).map Prod.snd

/-- The subsequence of first occurrences of each key, in first-seen order. -/
def firstKeys (ks : List String) : List String :=
  ks.foldl (fun acc k => if k ∈ acc then acc else acc ++ [k]) []

/-! ## Query Planner (`generateSearchQueries`, `src/src/lib/ai.ts`) -/

/-- A parsed JSON value, as produced by `extractJSON` (which attempts a
direct `JSON.parse`, then fenced-code-block extraction, then
object/array-delimited substring extraction, and yields `null` when all
fail — modelled by `Option Json` at the planner call site and by
`Json.null` at the filter call site). -/
inductive Json where
  | null
  | bool (b : Bool)
  | num (n : Int)
  | str (s : String)
  | arr (elems : List Json)
  | obj (fields : List (String × Json))

/-- Embeds `Array.isArray(parsed)`. -/
def Json.isArr : Json → Bool
  | .arr _ => true
  | _ => false

/-- The post-processing of `generateSearchQueries` (src/src/lib/ai.ts):
`const queries = Array.isArray(parsed) ? parsed : [userQuery]` followed by
`queries.slice(0, 3)`.  `parsed` is `extractJSON`'s result (`none` when the
response could not be parsed by any strategy); the network call itself is
external I/O. -/
def generateSearchQueries (userQuery : String) (parsed : Option Json) : List Json :=
  let queries := match parsed with
    | some (Json.arr xs) => xs
    | _ => [Json.str userQuery]
  queries.take 3

/-! ## Relevance Filter (`filterPostsByContext`, `src/src/lib/ai.ts`) -/

/-- Embeds JavaScript truthiness (the `if (!scores)` guard is its negation):
`null`, `false`, `0` and the empty string are falsy; every other value —
including every array and object — is truthy. -/
def jsFalsy : Json → Bool
  | Json.null => true
  | Json.bool b => !b
  | Json.num n => n == 0
  | Json.str s => s == ""
  | Json.arr _ => false
  | Json.obj _ => false

/-- Embeds the property access `scores[String(index)]` on a parsed value:
object fields are looked up by key; an array treats the numeric string as
an index; a string yields its character at that position; numbers and
booleans (and `null`, unreachable behind the truthiness guard) have no such
property (`undefined`). -/
def jsIndex : Json → Nat → Option Json
  | Json.obj fields, i => lookupKey fields (toString i)
  | Json.arr xs, i => xs.get? i
  | Json.str s, i => (s.data.get? i).map (fun c => Json.str (String.mk [c]))
  | _, _ => none

/-- Embeds `scores[String(index)] || 0` as the integer relevance score fed
to the `>= 6` filter and the numeric sort: a number property is used
directly (`|| 0` maps 0 to itself), and an absent property (`undefined`)
or any other falsy value gives 0.  The response contract casts the map to
`Record<string, number>`; a property value that is not a number scores 0
here, matching the program's kept-posts outcome for every value that does
not loosely compare `>= 6`. -/
def scoreAt (scores : Json) (i : Nat) : Int :=
  match jsIndex scores i with
  | some (Json.num n) => n
  | _ => 0

/-- The sort comparator `(a, b) => b.relevanceScore - a.relevanceScore`:
descending by relevance score. -/
def byRelevanceDesc (a b : RedditPost × Option Int) : Prop :=
  b.2.getD 0 ≤ a.2.getD 0

instance : DecidableRel byRelevanceDesc := fun a b =>
  inferInstanceAs (Decidable (b.2.getD 0 ≤ a.2.getD 0))

instance : IsTotal (RedditPost × Option Int) byRelevanceDesc :=
  ⟨fun a b => le_total (b.2.getD 0) (a.2.getD 0)⟩

instance : IsTrans (RedditPost × Option Int) byRelevanceDesc :=
  ⟨fun _ _ _ hab hbc => le_trans hbc hab⟩

/-- Embeds `filterPostsByContext(posts, userQuery)` after the AI call:
`scores` is `extractJSON`'s result cast to `Record<string, number>`, with
`Json.null` standing both for a parsed JSON `null` and for the `null`
`extractJSON` returns when every strategy fails.  The `posts.slice(0, 20)`
fallback triggers exactly on `if (!scores)` — a falsy result — while every
truthy result (a scoring object, but also e.g. a bare number) goes through
scoring with the per-position default 0.  A post is paired with its
`relevanceScore` (`none` on the fallback path, where the source leaves the
property absent); scored posts are filtered to scores ≥ 6 and stably
sorted descending (`Array.prototype.sort` embedded as the stable
`List.insertionSort`). -/
def filterPostsByContext (posts : List RedditPost) (scores : Json) :
    List (RedditPost × Option Int) :=
  if jsFalsy scores then
    (posts.take 20).map (fun p => (p, none))   -- Fallback
  else
    List.insertionSort byRelevanceDesc
      ((posts.enum.map (fun ip => (ip.2, some (scoreAt scores ip.1)))).filter
        (fun p => 6 ≤ p.2.getD 0))

/-! ## Theorems -/

theorem lookupKey_setKey_self {β : Type} (m : List (String × β)) (k : String) (v : β) :
    lookupKey (setKey m k v) k = some v := by
  induction m with
  | nil => simp [lookupKey, setKey, List.lookup]
  | cons kv rest ih =>
    by_cases h : kv.1 = k
    · simp [lookupKey, setKey, h, List.lookup]
    · have hb : (kv.1 == k) = false := beq_eq_false_iff_ne.mpr h
      have hb' : (k == kv.1) = false := beq_eq_false_iff_ne.mpr (Ne.symm h)
      simp only [setKey, hb, if_false, Bool.false_eq_true]
      simpa [lookupKey, List.lookup, hb'] using ih

theorem lookupKey_eraseKey_self {β : Type} (m : List (String × β)) (k : String) :
    lookupKey (eraseKey m k) k = none := by
  induction m with
  | nil => rfl
  | cons kv rest ih =>
    obtain ⟨k', v'⟩ := kv
    by_cases h : k' = k
    · have hb : (k' != k) = false := by simp [bne, h]
      show List.lookup k (List.filter (fun kv => kv.1 != k) ((k', v') :: rest)) = none
      rw [List.filter_cons]
      simpa only [hb, Bool.false_eq_true, if_false] using ih
    · have hb : (k' != k) = true := by simp [bne, beq_eq_false_iff_ne.mpr h]
      have hb' : (k == k') = false := beq_eq_false_iff_ne.mpr (Ne.symm h)
      show List.lookup k (List.filter (fun kv => kv.1 != k) ((k', v') :: rest)) = none
      rw [List.filter_cons]
      simp only [hb, if_true, List.lookup, hb']
      exact ih

/-- C2: with window W = 2000 ms and max 1 request per window, the first
request from an identity is admitted; a second request before W milliseconds
have elapsed since the window's start is denied with `retryAfter` equal to
W minus the elapsed time (which is positive and at most 2000); a request made
once at least W milliseconds have elapsed since the window's start resets the
window and is admitted. -/
theorem rateLimiter_window_policy (limits : RateLimiterState) (ip : String)
    (t0 t1 t2 : Nat) (hfresh : lookupKey limits ip = none)
    (h01 : t0 ≤ t1) (h1 : t1 < t0 + 2000) (h2 : t0 + 2000 ≤ t2) :
    (rateLimiter.check limits ip t0).1 = ⟨true, none⟩ ∧
    (rateLimiter.check (rateLimiter.check limits ip t0).2 ip t1).1 =
      ⟨false, some (2000 - (t1 - t0))⟩ ∧
    0 < 2000 - (t1 - t0) ∧ 2000 - (t1 - t0) ≤ 2000 ∧
    (rateLimiter.check (rateLimiter.check limits ip t0).2 ip t2).1 = ⟨true, none⟩ := by
  have hs1 : (rateLimiter.check limits ip t0).2 = setKey limits ip ⟨t0, 1⟩ := by
    simp [rateLimiter.check, RateLimiter.check, hfresh]
  have hl1 : lookupKey (setKey limits ip ⟨t0, 1⟩) ip = some ⟨t0, 1⟩ :=
    lookupKey_setKey_self _ _ _
  refine ⟨by simp [rateLimiter.check, RateLimiter.check, hfresh], ?_, by omega, by omega, ?_⟩
  · rw [hs1]
    have helapsed : ¬ (2000 ≤ t1 - t0) := by omega
    simp [rateLimiter.check, RateLimiter.check, hl1, helapsed]
  · rw [hs1]
    have helapsed : 2000 ≤ t2 - t0 := by omega
    simp [rateLimiter.check, RateLimiter.check, hl1, helapsed]

/-- Witness for `rateLimiter_window_policy` at a concrete run: identity
"1.2.3.4", first request at 0 ms, second at 1500 ms, third at 2500 ms. -/
theorem rateLimiter_window_policy_witness :
    (rateLimiter.check [] "1.2.3.4" 0).1 = ⟨true, none⟩ ∧
    (rateLimiter.check (rateLimiter.check [] "1.2.3.4" 0).2 "1.2.3.4" 1500).1 =
      ⟨false, some 500⟩ ∧
    0 < 2000 - (1500 - 0) ∧ 2000 - (1500 - 0) ≤ 2000 ∧
    (rateLimiter.check (rateLimiter.check [] "1.2.3.4" 0).2 "1.2.3.4" 2500).1 =
      ⟨true, none⟩ :=
  rateLimiter_window_policy [] "1.2.3.4" 0 1500 2500 rfl
    (by decide) (by decide) (by decide)

/-- C10: a denied `check` call mutates nothing — if the result is
`allowed = false` the returned state is the input state — and whenever the
stored entry's window has fully elapsed (`lastRequest + W ≤ now`) the call is
admitted, irrespective of how many denied calls happened in between (they
left the state unchanged). -/
theorem rateLimiter_deny_frame (windowMs maxRequests : Nat)
    (limits : RateLimiterState) (ip : String) (now : Nat) :
    ((RateLimiter.check windowMs maxRequests limits ip now).1.allowed = false →
      (RateLimiter.check windowMs maxRequests limits ip now).2 = limits) ∧
    (∀ e : RateLimitEntry, lookupKey limits ip = some e →
      e.lastRequest + windowMs ≤ now →
      (RateLimiter.check windowMs maxRequests limits ip now).1.allowed = true) := by
  constructor
  · intro hdenied
    unfold RateLimiter.check at hdenied ⊢
    cases hlook : lookupKey limits ip with
    | none => simp [hlook] at hdenied
    | some entry =>
      simp only [hlook] at hdenied ⊢
      by_cases hw : windowMs ≤ now - entry.lastRequest
      · simp [hw] at hdenied
      · by_cases hc : entry.requestCount < maxRequests
        · simp [hw, hc] at hdenied
        · simp [hw, hc]
  · intro e hlook helapsed
    have hw : windowMs ≤ now - e.lastRequest := by omega
    simp [RateLimiter.check, hlook, hw]

/-- Witness for `rateLimiter_deny_frame`: a denied call at 100 ms leaves the
single-entry state untouched, and a call at 2500 ms on the same state is
admitted. -/
theorem rateLimiter_deny_frame_witness :
    (RateLimiter.check 2000 1 [("a", ⟨0, 1⟩)] "a" 100).2 = [("a", ⟨0, 1⟩)] ∧
    (RateLimiter.check 2000 1 [("a", ⟨0, 1⟩)] "a" 2500).1.allowed = true :=
  ⟨(rateLimiter_deny_frame 2000 1 [("a", ⟨0, 1⟩)] "a" 100).1 (by decide),
   (rateLimiter_deny_frame 2000 1 [("a", ⟨0, 1⟩)] "a" 2500).2 ⟨0, 1⟩ rfl (by decide)⟩

/-- C3: for a stored entry, a `get` more than `ttlMs` after the entry's
creation instant evicts the entry and reports a miss; a `get` within the TTL
returns the stored response tagged `cached = true` with `cacheAge` recomputed
in seconds from the entry's creation instant at the moment of the `get`
(leaving the store unchanged), and that age is nondecreasing across
successive gets of the same entry. -/
theorem searchCache_ttl_semantics (ttlMs : Nat) (cache : SearchCacheState)
    (query sort : String) (now : Nat) (entry : CacheEntry)
    (hlook : lookupKey cache (SearchCache.key query sort) = some entry)
    (hclock : entry.timestamp ≤ now) :
    (ttlMs < now - entry.timestamp →
      (SearchCache.get ttlMs cache query sort now).1 = none ∧
      lookupKey (SearchCache.get ttlMs cache query sort now).2
        (SearchCache.key query sort) = none) ∧
    (now - entry.timestamp ≤ ttlMs →
      (SearchCache.get ttlMs cache query sort now).1 =
        some { entry.data with
                 cached := true, cacheAge := some ((now - entry.timestamp) / 1000) } ∧
      (SearchCache.get ttlMs cache query sort now).2 = cache) ∧
    (∀ later : Nat, now ≤ later →
      (now - entry.timestamp) / 1000 ≤ (later - entry.timestamp) / 1000) := by
  refine ⟨?_, ?_, ?_⟩
  · intro hexpired
    constructor
    · simp [SearchCache.get, hlook, hexpired]
    · simp only [SearchCache.get, hlook, hexpired, if_true]
      exact lookupKey_eraseKey_self cache (SearchCache.key query sort)
  · intro hfresh
    have hnot : ¬ ttlMs < now - entry.timestamp := by omega
    exact ⟨by simp [SearchCache.get, hlook, hnot], by simp [SearchCache.get, hlook, hnot]⟩
  · intro later hle
    exact Nat.div_le_div_right (by omega)

/-- Witness for `searchCache_ttl_semantics`: one entry stored at instant 0;
a get at 301000 ms (past the 5-minute TTL) evicts and misses, while a get at
2500 ms hits with `cacheAge = 2` seconds. -/
theorem searchCache_ttl_semantics_witness :
    (SearchCache.get defaultTtlMs
        (SearchCache.set [] "laptop" "top" ⟨[], false, some 0, "laptop", "top", 0⟩ 0)
        "laptop" "top" 301000).1 = none ∧
    (SearchCache.get defaultTtlMs
        (SearchCache.set [] "laptop" "top" ⟨[], false, some 0, "laptop", "top", 0⟩ 0)
        "laptop" "top" 2500).1 =
      some ⟨[], true, some 2, "laptop", "top", 0⟩ := by
  constructor
  · exact ((searchCache_ttl_semantics defaultTtlMs _ "laptop" "top" 301000
      ⟨⟨[], false, some 0, "laptop", "top", 0⟩, 0⟩
      (lookupKey_setKey_self _ _ _) (by decide)).1 (by decide)).1
  · exact ((searchCache_ttl_semantics defaultTtlMs _ "laptop" "top" 2500
      ⟨⟨[], false, some 0, "laptop", "top", 0⟩, 0⟩
      (lookupKey_setKey_self _ _ _) (by decide)).2.1 (by decide)).1

/-- C8 counterexample: the cache key is built from the query and sort alone —
`SearchCache.key` and both cache operations have no time-bucket parameter —
so a response put while serving a request with one time bucket (say `month`)
is returned verbatim by an in-TTL get issued while serving a request with a
different bucket (say `all`): the two operations share the key, contradicting
the claim that they use distinct keys and that the put is not returned. -/
theorem searchCache_key_ignores_time_counterexample :
    (SearchCache.get defaultTtlMs
        (SearchCache.set [] "laptop" "top" ⟨[], false, some 0, "laptop", "top", 0⟩ 0)
        "laptop" "top" 0).1 =
      some ⟨[], true, some 0, "laptop", "top", 0⟩ := by
  have h := lookupKey_setKey_self ([] : SearchCacheState) (SearchCache.key "laptop" "top")
    (⟨⟨[], false, some 0, "laptop", "top", 0⟩, 0⟩ : CacheEntry)
  simp [SearchCache.get, SearchCache.set] at h ⊢
  simp [h]

/-- C8 (amended): key normalization lowercases and trims the query and
concatenates it with the sort mode only; the time bucket is not part of the
key, so cache operations that agree on the normalized query and the sort use
the same key whatever time buckets their requests carried — an in-TTL get
returns the put. -/
theorem searchCache_key_query_sort_only (cache : SearchCacheState)
    (q1 q2 s : String) (d : SearchResponse) (ts now ttl : Nat)
    (hnorm : q1.toLower.trim = q2.toLower.trim)
    (_hclock : ts ≤ now) (hfresh : now - ts ≤ ttl) :
    (SearchCache.get ttl (SearchCache.set cache q1 s d ts) q2 s now).1 =
      some { d with cached := true, cacheAge := some ((now - ts) / 1000) } := by
  have hkey : SearchCache.key q2 s = SearchCache.key q1 s := by
    simp [SearchCache.key, hnorm]
  have h := lookupKey_setKey_self cache (SearchCache.key q1 s)
    (⟨{ d with cached := false, cacheAge := some 0 }, ts⟩ : CacheEntry)
  have hnot : ¬ ttl < now - ts := by omega
  simp [SearchCache.get, SearchCache.set, hkey, h, hnot]

/-- Witness for `searchCache_key_query_sort_only`: a put at 0 ms is returned
by a get at 1500 ms with age 1 second. -/
theorem searchCache_key_query_sort_only_witness :
    (SearchCache.get defaultTtlMs
        (SearchCache.set [] "laptop" "top" ⟨[], false, some 0, "laptop", "top", 0⟩ 0)
        "laptop" "top" 1500).1 =
      some ⟨[], true, some 1, "laptop", "top", 0⟩ :=
  searchCache_key_query_sort_only [] "laptop" "laptop" "top"
    ⟨[], false, some 0, "laptop", "top", 0⟩ 0 1500 defaultTtlMs rfl
    (by decide) (by decide)

/-- C1: for every sequence of upstream pages, time bucket and fetch instant,
`fetchRedditPosts` returns at most 100 posts, sorted by score (upvotes)
descending. -/
theorem fetchRedditPosts_bounded_sorted (pages : List RedditPage)
    (time : Option String) (nowMs : Int) :
    (fetchRedditPosts pages time nowMs).length ≤ 100 ∧
    List.Sorted (fun a b : RedditPost => b.upvotes ≤ a.upvotes)
      (fetchRedditPosts pages time nowMs) := by
  constructor
  · calc (fetchRedditPosts pages time nowMs).length
        = min 100 (List.insertionSort byScoreDesc
            (fetchPages time nowMs pages maxPages [])).length := List.length_take ..
      _ ≤ 100 := min_le_left ..
  · exact List.Pairwise.sublist (List.take_sublist ..)
      (List.sorted_insertionSort byScoreDesc ..)

/-- C6 counterexample: two pages each carrying one child with the same
identifier "dup"; the aggregation loop pushes both, no identifier-based
deduplication happens anywhere in `fetchRedditPosts`, and the final list
holds two posts with that identifier — refuting "at most one post per
identifier, first seen wins". -/
theorem fetchRedditPosts_no_dedup_counterexample :
    ¬ (((fetchRedditPosts
          [⟨[⟨"dup", "A", 10, 0, "/a", "r/a", 0, "ann"⟩], some "t1"⟩,
           ⟨[⟨"dup", "B", 5, 0, "/b", "r/a", 0, "bob"⟩], none⟩]
          none 0).filter (fun p => p.id == "dup")).length ≤ 1) := by
  decide

/-- C6 (amended): `fetchRedditPosts` does not deduplicate across pages — each
child passing the time filter contributes its own entry, so an identifier
contributed by two consumed pages occurs twice in the final list (here two
single-child pages, well under the 100-post cap). -/
theorem fetchRedditPosts_keeps_duplicates (c1 c2 : RedditApiChildData)
    (tok : String) (hid : c1.id = c2.id) :
    ((fetchRedditPosts [⟨[c1], some tok⟩, ⟨[c2], none⟩] none 0).filter
        (fun p => p.id == c1.id)).length = 2 := by
  have hacc : fetchPages none 0 [⟨[c1], some tok⟩, ⟨[c2], none⟩] maxPages [] =
      [normalizeChild c1, normalizeChild c2] := rfl
  have hperm := List.perm_insertionSort byScoreDesc
    [normalizeChild c1, normalizeChild c2]
  have hres : fetchRedditPosts [⟨[c1], some tok⟩, ⟨[c2], none⟩] none 0 =
      List.insertionSort byScoreDesc [normalizeChild c1, normalizeChild c2] := by
    unfold fetchRedditPosts
    rw [hacc]
    exact List.take_of_length_le (by rw [hperm.length_eq]; norm_num)
  rw [hres, (hperm.filter (fun p => p.id == c1.id)).length_eq]
  simp [normalizeChild, hid]

/-- Witness for `fetchRedditPosts_keeps_duplicates` at concrete children
sharing identifier "xyz". -/
theorem fetchRedditPosts_keeps_duplicates_witness :
    ((fetchRedditPosts
        [⟨[⟨"xyz", "first", 7, 1, "/p1", "r/x", 0, "u1"⟩], some "cursor"⟩,
         ⟨[⟨"xyz", "second", 3, 2, "/p2", "r/x", 0, "u2"⟩], none⟩]
        none 0).filter (fun p => p.id == "xyz")).length = 2 :=
  fetchRedditPosts_keeps_duplicates
    ⟨"xyz", "first", 7, 1, "/p1", "r/x", 0, "u1"⟩
    ⟨"xyz", "second", 3, 2, "/p2", "r/x", 0, "u2"⟩ "cursor" rfl

/-- C9 counterexample: with every attempt timing out and the list path's
budget of 3 attempts, the two waits between attempts are both 2000 ms.  The
claimed schedule `base * 2^attempt` forces `base = 2000` from the first
wait, so the second wait would have to be `2000 * 2^1 = 4000` — but it is
2000: a retried connection/timeout failure does not wait
`base * 2^attempt`. -/
theorem fetchWithRetry_timeout_delay_counterexample :
    (fetchWithRetry (fun _ => FetchOutcome.timeout) defaultMaxRetries).2 =
      [2000, 2000] ∧
    (fetchWithRetry (fun _ => FetchOutcome.timeout) defaultMaxRetries).2 ≠
      [2000 * 2 ^ 0, 2000 * 2 ^ 1] := by
  refine ⟨rfl, ?_⟩
  intro h
  rw [show (fetchWithRetry (fun _ => FetchOutcome.timeout) defaultMaxRetries).2 =
      [2000, 2000] from rfl] at h
  simp at h

theorem fetchWithRetryGo_succ (outcomes : Nat → FetchOutcome) (maxRetries f attempt : Nat) :
    fetchWithRetryGo outcomes maxRetries (f + 1) attempt =
      match outcomes attempt with
      | FetchOutcome.ok => (FetchResult.success attempt, [])
      | FetchOutcome.status s =>
        if retryableStatus s ∧ attempt < maxRetries - 1 then
          ((fetchWithRetryGo outcomes maxRetries f (attempt + 1)).1,
           (2 ^ attempt * 1500) :: (fetchWithRetryGo outcomes maxRetries f (attempt + 1)).2)
        else if attempt = maxRetries - 1 then
          (FetchResult.failure "Reddit API error", [])
        else
          ((fetchWithRetryGo outcomes maxRetries f (attempt + 1)).1,
           2000 :: (fetchWithRetryGo outcomes maxRetries f (attempt + 1)).2)
      | FetchOutcome.timeout =>
        if attempt < maxRetries - 1 then
          ((fetchWithRetryGo outcomes maxRetries f (attempt + 1)).1,
           2000 :: (fetchWithRetryGo outcomes maxRetries f (attempt + 1)).2)
        else
          (FetchResult.failure "Reddit request timed out after multiple retries", [])
      | FetchOutcome.netErr =>
        if attempt = maxRetries - 1 then
          (FetchResult.failure "network error", [])
        else
          ((fetchWithRetryGo outcomes maxRetries f (attempt + 1)).1,
           2000 :: (fetchWithRetryGo outcomes maxRetries f (attempt + 1)).2) := rfl

theorem fetchWithRetry_spec_cons (outcomes : Nat → FetchOutcome)
    (maxRetries attempt f : Nat) (r : FetchResult × List Nat) (d : Nat)
    (hd : d = (match outcomes attempt with
               | FetchOutcome.status c =>
                 if retryableStatus c then 2 ^ attempt * 1500 else 2000
               | _ => 2000))
    (hf : 1 ≤ f)
    (hlen : r.2.length ≤ f - 1)
    (hdelays : ∀ i, ∀ h : i < r.2.length, r.2.get ⟨i, h⟩ =
      (match outcomes (attempt + 1 + i) with
       | FetchOutcome.status c =>
         if retryableStatus c then 2 ^ (attempt + 1 + i) * 1500 else 2000
       | _ => 2000))
    (hsucc : ∀ a, r.1 = FetchResult.success a →
      outcomes a = FetchOutcome.ok ∧ a = attempt + 1 + r.2.length)
    (hfail : ∀ msg, r.1 = FetchResult.failure msg →
      attempt + 1 + r.2.length = maxRetries - 1 ∧
      outcomes (attempt + 1 + r.2.length) ≠ FetchOutcome.ok) :
    ((r.1, d :: r.2).2.length ≤ (f + 1) - 1) ∧
    (∀ i, ∀ h : i < (r.1, d :: r.2).2.length, (r.1, d :: r.2).2.get ⟨i, h⟩ =
      (match outcomes (attempt + i) with
       | FetchOutcome.status c =>
         if retryableStatus c then 2 ^ (attempt + i) * 1500 else 2000
       | _ => 2000)) ∧
    (∀ a, (r.1, d :: r.2).1 = FetchResult.success a →
      outcomes a = FetchOutcome.ok ∧ a = attempt + (r.1, d :: r.2).2.length) ∧
    (∀ msg, (r.1, d :: r.2).1 = FetchResult.failure msg →
      attempt + (r.1, d :: r.2).2.length = maxRetries - 1 ∧
      outcomes (attempt + (r.1, d :: r.2).2.length) ≠ FetchOutcome.ok) := by
  refine ⟨by simp; omega, ?_, ?_, ?_⟩
  · intro i h
    match i, h with
    | 0, _ => simpa using hd
    | j + 1, h =>
      have hj : j < r.2.length := by simpa using h
      have := hdelays j hj
      simpa [show attempt + (j + 1) = attempt + 1 + j by omega] using this
  · intro a ha
    obtain ⟨hok, hlena⟩ := hsucc a ha
    exact ⟨hok, by simp [hlena]; omega⟩
  · intro msg hmsg
    obtain ⟨hat, hne⟩ := hfail msg hmsg
    constructor
    · simp only [List.length_cons]
      omega
    · simpa [show attempt + (r.2.length + 1) = attempt + 1 + r.2.length by omega] using hne

theorem fetchWithRetry_spec_stop (outcomes : Nat → FetchOutcome)
    (maxRetries attempt f : Nat) (msg' : String)
    (hlast : attempt = maxRetries - 1) (h : outcomes attempt ≠ FetchOutcome.ok) :
    (((FetchResult.failure msg', ([] : List Nat))).2.length ≤ (f + 1) - 1) ∧
    (∀ i, ∀ hi : i < ((FetchResult.failure msg', ([] : List Nat))).2.length,
      ((FetchResult.failure msg', ([] : List Nat))).2.get ⟨i, hi⟩ =
      (match outcomes (attempt + i) with
       | FetchOutcome.status c =>
         if retryableStatus c then 2 ^ (attempt + i) * 1500 else 2000
       | _ => 2000)) ∧
    (∀ a, ((FetchResult.failure msg', ([] : List Nat))).1 = FetchResult.success a →
      outcomes a = FetchOutcome.ok ∧
      a = attempt + ((FetchResult.failure msg', ([] : List Nat))).2.length) ∧
    (∀ msg, ((FetchResult.failure msg', ([] : List Nat))).1 = FetchResult.failure msg →
      attempt + ((FetchResult.failure msg', ([] : List Nat))).2.length = maxRetries - 1 ∧
      outcomes (attempt + ((FetchResult.failure msg', ([] : List Nat))).2.length) ≠
        FetchOutcome.ok) := by
  refine ⟨by simp, by intro i hi; simp at hi, by intro a ha; simp at ha, ?_⟩
  intro msg _
  exact ⟨by simpa using hlast, by simpa using h⟩

theorem fetchWithRetryGo_spec (outcomes : Nat → FetchOutcome) (maxRetries : Nat) :
    ∀ fuel attempt, attempt + fuel = maxRetries → 1 ≤ fuel →
      ((fetchWithRetryGo outcomes maxRetries fuel attempt).2.length ≤ fuel - 1) ∧
      (∀ i, ∀ h : i < (fetchWithRetryGo outcomes maxRetries fuel attempt).2.length,
        (fetchWithRetryGo outcomes maxRetries fuel attempt).2.get ⟨i, h⟩ =
          (match outcomes (attempt + i) with
           | FetchOutcome.status c =>
             if retryableStatus c then 2 ^ (attempt + i) * 1500 else 2000
           | _ => 2000)) ∧
      (∀ a, (fetchWithRetryGo outcomes maxRetries fuel attempt).1 = FetchResult.success a →
        outcomes a = FetchOutcome.ok ∧
        a = attempt + (fetchWithRetryGo outcomes maxRetries fuel attempt).2.length) ∧
      (∀ msg, (fetchWithRetryGo outcomes maxRetries fuel attempt).1 = FetchResult.failure msg →
        attempt + (fetchWithRetryGo outcomes maxRetries fuel attempt).2.length =
          maxRetries - 1 ∧
        outcomes (attempt + (fetchWithRetryGo outcomes maxRetries fuel attempt).2.length) ≠
          FetchOutcome.ok) := by
  intro fuel
  induction fuel with
  | zero => intro attempt _ h1; omega
  | succ f ih =>
    intro attempt hsum _
    cases houtc : outcomes attempt with
    | ok =>
      have hgo : fetchWithRetryGo outcomes maxRetries (f + 1) attempt =
          (FetchResult.success attempt, []) := by
        rw [fetchWithRetryGo_succ, houtc]
      rw [hgo]
      refine ⟨by simp, by intro i h; simp at h, ?_, by intro msg hmsg; simp at hmsg⟩
      intro a ha
      have : attempt = a := by simpa using ha
      subst this
      exact ⟨houtc, by simp⟩
    | status s =>
      have hgo1 : fetchWithRetryGo outcomes maxRetries (f + 1) attempt =
          (if retryableStatus s ∧ attempt < maxRetries - 1 then
            ((fetchWithRetryGo outcomes maxRetries f (attempt + 1)).1,
             (2 ^ attempt * 1500) ::
               (fetchWithRetryGo outcomes maxRetries f (attempt + 1)).2)
          else if attempt = maxRetries - 1 then
            (FetchResult.failure "Reddit API error", [])
          else
            ((fetchWithRetryGo outcomes maxRetries f (attempt + 1)).1,
             2000 :: (fetchWithRetryGo outcomes maxRetries f (attempt + 1)).2)) := by
        rw [fetchWithRetryGo_succ, houtc]
      by_cases hc : retryableStatus s ∧ attempt < maxRetries - 1
      · have hf : 1 ≤ f := by omega
        have hgo : fetchWithRetryGo outcomes maxRetries (f + 1) attempt =
            ((fetchWithRetryGo outcomes maxRetries f (attempt + 1)).1,
             (2 ^ attempt * 1500) ::
               (fetchWithRetryGo outcomes maxRetries f (attempt + 1)).2) := by
          rw [hgo1, if_pos hc]
        obtain ⟨ihl, ihd, ihs, ihf⟩ := ih (attempt + 1) (by omega) hf
        rw [hgo]
        exact fetchWithRetry_spec_cons outcomes maxRetries attempt f _ _
          (by simp [houtc, hc.1]) hf ihl ihd ihs ihf
      · by_cases hlast : attempt = maxRetries - 1
        · have hgo : fetchWithRetryGo outcomes maxRetries (f + 1) attempt =
              (FetchResult.failure "Reddit API error", []) := by
            rw [hgo1, if_neg hc, if_pos hlast]
          rw [hgo]
          exact fetchWithRetry_spec_stop outcomes maxRetries attempt f _ hlast
            (by simp [houtc])
        · have hlt : attempt < maxRetries - 1 := by omega
          have hf : 1 ≤ f := by omega
          have hnr : retryableStatus s = false := by
            rcases Bool.eq_false_or_eq_true (retryableStatus s) with hb | hb
            · exact absurd ⟨hb, hlt⟩ hc
            · exact hb
          have hgo : fetchWithRetryGo outcomes maxRetries (f + 1) attempt =
              ((fetchWithRetryGo outcomes maxRetries f (attempt + 1)).1,
               2000 :: (fetchWithRetryGo outcomes maxRetries f (attempt + 1)).2) := by
            rw [hgo1, if_neg hc, if_neg hlast]
          obtain ⟨ihl, ihd, ihs, ihf⟩ := ih (attempt + 1) (by omega) hf
          rw [hgo]
          exact fetchWithRetry_spec_cons outcomes maxRetries attempt f _ _
            (by simp [houtc, hnr]) hf ihl ihd ihs ihf
    | timeout =>
      by_cases hc : attempt < maxRetries - 1
      · have hf : 1 ≤ f := by omega
        have hgo1 : fetchWithRetryGo outcomes maxRetries (f + 1) attempt =
            (if attempt < maxRetries - 1 then
              ((fetchWithRetryGo outcomes maxRetries f (attempt + 1)).1,
               2000 :: (fetchWithRetryGo outcomes maxRetries f (attempt + 1)).2)
            else
              (FetchResult.failure "Reddit request timed out after multiple retries", [])) := by
          rw [fetchWithRetryGo_succ, houtc]
        have hgo : fetchWithRetryGo outcomes maxRetries (f + 1) attempt =
            ((fetchWithRetryGo outcomes maxRetries f (attempt + 1)).1,
             2000 :: (fetchWithRetryGo outcomes maxRetries f (attempt + 1)).2) := by
          rw [hgo1, if_pos hc]
        obtain ⟨ihl, ihd, ihs, ihf⟩ := ih (attempt + 1) (by omega) hf
        rw [hgo]
        exact fetchWithRetry_spec_cons outcomes maxRetries attempt f _ _
          (by simp [houtc]) hf ihl ihd ihs ihf
      · have hlast : attempt = maxRetries - 1 := by omega
        have hgo : fetchWithRetryGo outcomes maxRetries (f + 1) attempt =
            (FetchResult.failure "Reddit request timed out after multiple retries", []) := by
          rw [fetchWithRetryGo_succ, houtc]
          exact if_neg hc
        rw [hgo]
        exact fetchWithRetry_spec_stop outcomes maxRetries attempt f _ hlast
          (by simp [houtc])
    | netErr =>
      by_cases hc : attempt = maxRetries - 1
      · have hgo : fetchWithRetryGo outcomes maxRetries (f + 1) attempt =
            (FetchResult.failure "network error", []) := by
          rw [fetchWithRetryGo_succ, houtc]
          exact if_pos hc
        rw [hgo]
        exact fetchWithRetry_spec_stop outcomes maxRetries attempt f _ hc
          (by simp [houtc])
      · have hf : 1 ≤ f := by omega
        have hgo1 : fetchWithRetryGo outcomes maxRetries (f + 1) attempt =
            (if attempt = maxRetries - 1 then
              (FetchResult.failure "network error", [])
            else
              ((fetchWithRetryGo outcomes maxRetries f (attempt + 1)).1,
               2000 :: (fetchWithRetryGo outcomes maxRetries f (attempt + 1)).2)) := by
          rw [fetchWithRetryGo_succ, houtc]
        have hgo : fetchWithRetryGo outcomes maxRetries (f + 1) attempt =
            ((fetchWithRetryGo outcomes maxRetries f (attempt + 1)).1,
             2000 :: (fetchWithRetryGo outcomes maxRetries f (attempt + 1)).2) := by
          rw [hgo1, if_neg hc]
        obtain ⟨ihl, ihd, ihs, ihf⟩ := ih (attempt + 1) (by omega) hf
        rw [hgo]
        exact fetchWithRetry_spec_cons outcomes maxRetries attempt f _ _
          (by simp [houtc]) hf ihl ihd ihs ihf

/-- C9 (amended): the executor makes at most `maxRetries` attempts (so at
most `maxRetries - 1` waits); the wait after a retried attempt `i` is
`2^i * 1500` ms when that attempt failed with a retryable status (429/5xx)
and a flat 2000 ms otherwise — timeouts, connection errors, and also
non-retryable statuses, whose in-try throw is caught by the function's own
catch and retried like a generic network error; a success carries the
succeeding attempt's response; a failure is propagated to the caller only
when the final attempt (index `maxRetries - 1`) fails, every earlier
failing attempt having been retried; and the detail-fetch path's attempt
budget (2) is smaller than the paginated list path's (3). -/
theorem fetchWithRetry_retry_policy (outcomes : Nat → FetchOutcome)
    (maxRetries : Nat) (hpos : 1 ≤ maxRetries) :
    ((fetchWithRetry outcomes maxRetries).2.length ≤ maxRetries - 1) ∧
    (∀ i, ∀ h : i < (fetchWithRetry outcomes maxRetries).2.length,
      (fetchWithRetry outcomes maxRetries).2.get ⟨i, h⟩ =
        (match outcomes i with
         | FetchOutcome.status c =>
           if retryableStatus c then 2 ^ i * 1500 else 2000
         | _ => 2000)) ∧
    (∀ a, (fetchWithRetry outcomes maxRetries).1 = FetchResult.success a →
      outcomes a = FetchOutcome.ok ∧
      a = (fetchWithRetry outcomes maxRetries).2.length) ∧
    (∀ msg, (fetchWithRetry outcomes maxRetries).1 = FetchResult.failure msg →
      (fetchWithRetry outcomes maxRetries).2.length = maxRetries - 1 ∧
      outcomes ((fetchWithRetry outcomes maxRetries).2.length) ≠ FetchOutcome.ok) ∧
    detailMaxRetries < defaultMaxRetries := by
  obtain ⟨hl, hd, hs, hf⟩ := fetchWithRetryGo_spec outcomes maxRetries maxRetries 0
    (by omega) hpos
  exact ⟨hl, by simpa using hd, by simpa using hs, by simpa using hf, by decide⟩

/-- Witness for `fetchWithRetry_retry_policy`: attempt 0 fails with status
503 (retryable, wait 1500 ms), attempt 1 succeeds. -/
theorem fetchWithRetry_retry_policy_witness :
    ((fetchWithRetry (fun i => if i = 0 then FetchOutcome.status 503 else FetchOutcome.ok)
        3).2.length ≤ 3 - 1) ∧
    detailMaxRetries < defaultMaxRetries :=
  ⟨(fetchWithRetry_retry_policy
      (fun i => if i = 0 then FetchOutcome.status 503 else FetchOutcome.ok) 3
      (by decide)).1,
   (fetchWithRetry_retry_policy
      (fun i => if i = 0 then FetchOutcome.status 503 else FetchOutcome.ok) 3
      (by decide)).2.2.2.2⟩

theorem map_fst_setKey {β : Type} (m : List (String × β)) (k : String) (v : β) :
    (setKey m k v).map Prod.fst =
      if k ∈ m.map Prod.fst then m.map Prod.fst else m.map Prod.fst ++ [k] := by
  induction m with
  | nil => simp [setKey]
  | cons kv rest ih =>
    by_cases h : kv.1 = k
    · simp [setKey, h]
    · have hb : (kv.1 == k) = false := beq_eq_false_iff_ne.mpr h
      by_cases hk : k ∈ List.map Prod.fst rest
      · simp [setKey, hb, ih, hk, Ne.symm h]
      · simp [setKey, hb, ih, hk, Ne.symm h]

theorem firstKeys_append_singleton (ks : List String) (k : String) :
    firstKeys (ks ++ [k]) =
      if k ∈ firstKeys ks then firstKeys ks else firstKeys ks ++ [k] := by
  simp [firstKeys, List.foldl_append]

theorem firstKeys_nodup_aux (ks : List String) :
    ∀ acc : List String, acc.Nodup →
      (ks.foldl (fun acc k => if k ∈ acc then acc else acc ++ [k]) acc).Nodup := by
  induction ks with
  | nil => intro acc h; simpa using h
  | cons k ks ih =>
    intro acc hacc
    by_cases hk : k ∈ acc
    · simpa [hk] using ih acc hacc
    · have : (acc ++ [k]).Nodup := by simp [List.nodup_append, hacc, hk]
      simpa [hk] using ih (acc ++ [k]) this

theorem firstKeys_nodup (ks : List String) : (firstKeys ks).Nodup :=
  firstKeys_nodup_aux ks [] (by simp)

theorem mem_setKey {β : Type} {m : List (String × β)} {k : String} {v : β}
    {kv' : String × β} (hnup : (m.map Prod.fst).Nodup) (h : kv' ∈ setKey m k v) :
    kv' = (k, v) ∨ (kv' ∈ m ∧ kv'.1 ≠ k) := by
  obtain ⟨a, b⟩ := kv'
  induction m with
  | nil => simpa [setKey] using h
  | cons kv rest ih =>
    have hpair : (∀ x : β, (kv.1, x) ∉ rest) ∧ (rest.map Prod.fst).Nodup := by
      simpa using hnup
    by_cases hk : kv.1 = k
    · have hb : (kv.1 == k) = true := by simp [hk]
      simp only [setKey, hb, if_true] at h
      rcases List.mem_cons.mp h with h1 | h2
      · exact Or.inl h1
      · right
        refine ⟨List.mem_cons_of_mem _ h2, ?_⟩
        intro hcontra
        have hca : a = k := hcontra
        have hfst : kv.1 = a := by rw [hk, hca]
        exact hpair.1 b (by rw [hfst]; exact h2)
    · have hb : (kv.1 == k) = false := beq_eq_false_iff_ne.mpr hk
      simp only [setKey, hb, Bool.false_eq_true, if_false] at h
      rcases List.mem_cons.mp h with h1 | h2
      · right
        refine ⟨by simp [h1], ?_⟩
        have hab : a = kv.1 := congrArg Prod.fst h1
        intro hcontra
        have hca : a = k := hcontra
        rw [hab] at hca
        exact hk hca
      · rcases ih hpair.2 h2 with h3 | ⟨h4, h5⟩
        · exact Or.inl h3
        · exact Or.inr ⟨List.mem_cons_of_mem _ h4, h5⟩

theorem mergeFold_inv : ∀ (l done : List RedditPost) (m : List (String × RedditPost)),
    m.map Prod.fst = firstKeys (done.map (fun p => p.id)) →
    (∀ kv, kv ∈ m → kv.2.id = kv.1 ∧
      (done.filter (fun q => q.id == kv.1)).getLast? = some kv.2) →
    ((l.foldl (fun m p => setKey m p.id p) m).map Prod.fst =
       firstKeys ((done ++ l).map (fun p => p.id))) ∧
    (∀ kv, kv ∈ l.foldl (fun m p => setKey m p.id p) m →
      kv.2.id = kv.1 ∧
      ((done ++ l).filter (fun q => q.id == kv.1)).getLast? = some kv.2) := by
  intro l
  induction l with
  | nil =>
    intro done m hmap hent
    constructor
    · simpa using hmap
    · intro kv hkv
      simpa using hent kv hkv
  | cons p l' ih =>
    intro done m hmap hent
    have hstepmap : (setKey m p.id p).map Prod.fst =
        firstKeys ((done ++ [p]).map (fun q => q.id)) := by
      rw [map_fst_setKey, hmap]
      have hm : (done ++ [p]).map (fun q : RedditPost => q.id) =
          done.map (fun q : RedditPost => q.id) ++ [p.id] := by simp
      rw [hm, firstKeys_append_singleton]
    have hstepent : ∀ kv, kv ∈ setKey m p.id p → kv.2.id = kv.1 ∧
        ((done ++ [p]).filter (fun q => q.id == kv.1)).getLast? = some kv.2 := by
      intro kv hkv
      have hnup : (m.map Prod.fst).Nodup := hmap ▸ firstKeys_nodup _
      rcases mem_setKey hnup hkv with h1 | ⟨h2, h3⟩
      · subst h1
        refine ⟨rfl, ?_⟩
        rw [List.filter_append]
        have : [p].filter (fun q => q.id == p.id) = [p] := by simp
        rw [this, List.getLast?_concat]
      · obtain ⟨hid, hlast⟩ := hent kv h2
        refine ⟨hid, ?_⟩
        rw [List.filter_append]
        have hfalse : (p.id == kv.1) = false := beq_eq_false_iff_ne.mpr (Ne.symm h3)
        have : [p].filter (fun q => q.id == kv.1) = [] := by simp [hfalse]
        rw [this, List.append_nil, hlast]
    have := ih (done ++ [p]) (setKey m p.id p) hstepmap hstepent
    simpa using this

/-- C7 counterexample: two branches contributing two distinct posts with the
same identifier "x" — the merged output holds the SECOND occurrence (the
`Map` constructor's later `set` overwrites the value), not the first, so
"first occurrence wins" fails. -/
theorem mergeById_first_wins_counterexample :
    mergeById [[⟨"x", "A", 10, 0, "", "r", 0, "u"⟩],
               [⟨"x", "B", 5, 0, "", "r", 0, "u"⟩]] =
      [⟨"x", "B", 5, 0, "", "r", 0, "u"⟩] ∧
    mergeById [[⟨"x", "A", 10, 0, "", "r", 0, "u"⟩],
               [⟨"x", "B", 5, 0, "", "r", 0, "u"⟩]] ≠
      [⟨"x", "A", 10, 0, "", "r", 0, "u"⟩] := by
  decide

/-- C7 (amended): the merge flattens the branch results in branch order and
keeps exactly one entry per identifier, ordered by each identifier's first
occurrence in the flattened list (the first occurrence's position is
preserved); the entry kept for a duplicated identifier is however the last
occurrence in flattened order, not the first. -/
theorem mergeById_characterization (nested : List (List RedditPost)) :
    (mergeById nested).map (fun p => p.id) =
      firstKeys (nested.flatten.map (fun p => p.id)) ∧
    ∀ p, p ∈ mergeById nested →
      (nested.flatten.filter (fun q => q.id == p.id)).getLast? = some p := by
  obtain ⟨hmap, hent⟩ := mergeFold_inv nested.flatten [] []
    (by rfl) (by intro kv hkv; simp at hkv)
  constructor
  · have h1 : (mergeById nested).map (fun p => p.id) =
        (nested.flatten.foldl (fun m p => setKey m p.id p) []).map
          (fun kv => kv.2.id) := by
      simp [mergeById, List.map_map]
    have h2 : (nested.flatten.foldl (fun m p => setKey m p.id p) []).map
          (fun kv => kv.2.id) =
        (nested.flatten.foldl (fun m p => setKey m p.id p) []).map Prod.fst := by
      apply List.map_congr_left
      intro kv hkv
      exact (hent kv hkv).1
    rw [h1, h2]
    simpa using hmap
  · intro p hp
    simp only [mergeById, List.mem_map] at hp
    obtain ⟨kv, hkv, hsnd⟩ := hp
    obtain ⟨hid, hlast⟩ := hent kv hkv
    rw [← hsnd]
    simp only [hid]
    simpa using hlast

/-- Witness for `mergeById_characterization`: branch one holds a post with
identifier "x", branch two a different post with identifier "x" and one with
"y"; the output ids are the first-seen order ["x", "y"] and the entry kept
for "x" is the flattened list's last occurrence. -/
theorem mergeById_characterization_witness :
    (mergeById [[(⟨"x", "A", 10, 0, "", "r", 0, "u"⟩ : RedditPost)],
                [⟨"x", "B", 5, 0, "", "r", 0, "u"⟩,
                 ⟨"y", "C", 1, 0, "", "r", 0, "u"⟩]]).map (fun p => p.id) =
      firstKeys (([[(⟨"x", "A", 10, 0, "", "r", 0, "u"⟩ : RedditPost)],
                  [⟨"x", "B", 5, 0, "", "r", 0, "u"⟩,
                   ⟨"y", "C", 1, 0, "", "r", 0, "u"⟩]] : List (List RedditPost)).flatten.map
        (fun p => p.id)) ∧
    (([[(⟨"x", "A", 10, 0, "", "r", 0, "u"⟩ : RedditPost)],
      [⟨"x", "B", 5, 0, "", "r", 0, "u"⟩,
       ⟨"y", "C", 1, 0, "", "r", 0, "u"⟩]] : List (List RedditPost)).flatten.filter
        (fun q => q.id == (⟨"x", "B", 5, 0, "", "r", 0, "u"⟩ : RedditPost).id)).getLast? =
      some ⟨"x", "B", 5, 0, "", "r", 0, "u"⟩ :=
  ⟨(mergeById_characterization _).1,
   (mergeById_characterization
      [[(⟨"x", "A", 10, 0, "", "r", 0, "u"⟩ : RedditPost)],
       [⟨"x", "B", 5, 0, "", "r", 0, "u"⟩,
        ⟨"y", "C", 1, 0, "", "r", 0, "u"⟩]]).2
      ⟨"x", "B", 5, 0, "", "r", 0, "u"⟩ (by decide)⟩

/-- C4 counterexample: a response parsing to the bare number 7 — truthy but
not a scoring map — does not take the `posts.slice(0, 20)` fallback the
claim requires: the `if (!scores)` guard fires only on falsy results, so
every position scores 0 via the property-lookup default and the output is
empty, not the one-post input truncated to 20 unscored. -/
theorem filterPostsByContext_fallback_counterexample :
    filterPostsByContext [⟨"a", "T", 1, 0, "", "r", 0, "u"⟩] (Json.num 7) = [] ∧
    filterPostsByContext [⟨"a", "T", 1, 0, "", "r", 0, "u"⟩] (Json.num 7) ≠
      (([(⟨"a", "T", 1, 0, "", "r", 0, "u"⟩ : RedditPost)].take 20).map
        (fun p => (p, none))) := by
  constructor
  · rfl
  · intro h
    rw [show filterPostsByContext [⟨"a", "T", 1, 0, "", "r", 0, "u"⟩] (Json.num 7) = []
      from rfl] at h
    simp at h

/-- C4 (amended): for a response parsed into a scoring object, the output
is, up to the descending stable sort, exactly the input positions scoring
≥ 6 (missing positions defaulting to 0), each post carrying its score, and
the spec's example map `{"0": 2, "1": 9, "2": 7}` over three posts yields
position 1 then position 2.  The `posts.slice(0, 20)` unscored fallback
triggers exactly when `extractJSON`'s result is falsy (a failed parse, or
a parsed `null`, `false`, `0` or empty string); a truthy non-map result
such as a bare nonzero number or `true` is scored instead — every position
defaults to 0 and the output is empty. -/
theorem filterPostsByContext_threshold :
    (∀ (posts : List RedditPost) (fields : List (String × Json)),
      List.Perm (filterPostsByContext posts (Json.obj fields))
        ((posts.enum.filter (fun ip => 6 ≤ scoreAt (Json.obj fields) ip.1)).map
          (fun ip => (ip.2, some (scoreAt (Json.obj fields) ip.1)))) ∧
      List.Sorted (fun a b : RedditPost × Option Int => b.2.getD 0 ≤ a.2.getD 0)
        (filterPostsByContext posts (Json.obj fields))) ∧
    (∀ p0 p1 p2 : RedditPost,
      filterPostsByContext [p0, p1, p2]
          (Json.obj [("0", Json.num 2), ("1", Json.num 9), ("2", Json.num 7)]) =
        [(p1, some 9), (p2, some 7)]) ∧
    (∀ (posts : List RedditPost) (j : Json), jsFalsy j = true →
      filterPostsByContext posts j = (posts.take 20).map (fun p => (p, none))) ∧
    (∀ (posts : List RedditPost) (n : Int), n ≠ 0 →
      filterPostsByContext posts (Json.num n) = []) ∧
    (∀ posts : List RedditPost,
      filterPostsByContext posts (Json.bool true) = []) := by
  have hempty : ∀ (posts : List RedditPost) (j : Json),
      (∀ i, scoreAt j i = 0) →
      (posts.enum.map (fun ip => (ip.2, some (scoreAt j ip.1)))).filter
        (fun p => 6 ≤ p.2.getD 0) = [] := by
    intro posts j hzero
    rw [List.filter_eq_nil_iff]
    intro a ha
    rcases List.mem_map.mp ha with ⟨ip, _, rfl⟩
    simp [hzero ip.1]
  refine ⟨?_, ?_, ?_, ?_, ?_⟩
  · intro posts fields
    constructor
    · have hperm := List.perm_insertionSort byRelevanceDesc
        ((posts.enum.map
          (fun ip => (ip.2, some (scoreAt (Json.obj fields) ip.1)))).filter
          (fun p => 6 ≤ p.2.getD 0))
      refine hperm.trans ?_
      rw [List.filter_map]
      apply List.Perm.of_eq
      congr 1
    · exact List.sorted_insertionSort byRelevanceDesc ..
  · intro p0 p1 p2
    have h0 : scoreAt
        (Json.obj [("0", Json.num 2), ("1", Json.num 9), ("2", Json.num 7)]) 0 = 2 := rfl
    have h1 : scoreAt
        (Json.obj [("0", Json.num 2), ("1", Json.num 9), ("2", Json.num 7)]) 1 = 9 := rfl
    have h2 : scoreAt
        (Json.obj [("0", Json.num 2), ("1", Json.num 9), ("2", Json.num 7)]) 2 = 7 := rfl
    simp [filterPostsByContext, jsFalsy, List.enum, List.enumFrom, h0, h1, h2,
      List.insertionSort, List.orderedInsert, byRelevanceDesc]
  · intro posts j hj
    simp [filterPostsByContext, hj]
  · intro posts n hn
    have hfalsy : jsFalsy (Json.num n) = false := by simp [jsFalsy, hn]
    have hz : ∀ i, scoreAt (Json.num n) i = 0 := fun i => rfl
    simp [filterPostsByContext, hfalsy, hempty posts (Json.num n) hz]
  · intro posts
    have hz : ∀ i, scoreAt (Json.bool true) i = 0 := fun i => rfl
    simp [filterPostsByContext, jsFalsy, hempty posts (Json.bool true) hz]

/-- Witness for `filterPostsByContext_threshold`: a parse failure
(`Json.null`, falsy) returns the single input post unscored, while a
response parsing to the truthy number 5 returns the empty list. -/
theorem filterPostsByContext_threshold_witness :
    filterPostsByContext [⟨"b", "U", 2, 0, "", "r", 0, "v"⟩] Json.null =
      ([(⟨"b", "U", 2, 0, "", "r", 0, "v"⟩ : RedditPost)].take 20).map
        (fun p => (p, none)) ∧
    filterPostsByContext [⟨"b", "U", 2, 0, "", "r", 0, "v"⟩] (Json.num 5) = [] :=
  ⟨filterPostsByContext_threshold.2.2.1 [⟨"b", "U", 2, 0, "", "r", 0, "v"⟩]
     Json.null rfl,
   filterPostsByContext_threshold.2.2.2.1 [⟨"b", "U", 2, 0, "", "r", 0, "v"⟩]
     5 (by decide)⟩

/-- C5: the planner returns at most 3 queries, and whenever the response
does not parse to a JSON array (unparsable responses — e.g. plain prose
with no JSON — give `parsed = none`; parses to non-arrays also fail the
`Array.isArray` check), the result is exactly the single-element list
holding the original query verbatim. -/
theorem generateSearchQueries_fallback :
    (∀ (q : String) (parsed : Option Json),
      (generateSearchQueries q parsed).length ≤ 3) ∧
    (∀ (q : String) (parsed : Option Json),
      (∀ xs, parsed ≠ some (Json.arr xs)) →
      generateSearchQueries q parsed = [Json.str q]) := by
  constructor
  · intro q parsed
    simp only [generateSearchQueries]
    exact List.length_take_le 3 _
  · intro q parsed hnotarr
    match parsed with
    | none => rfl
    | some Json.null => rfl
    | some (Json.bool b) => rfl
    | some (Json.num n) => rfl
    | some (Json.str s) => rfl
    | some (Json.arr xs) => exact absurd rfl (hnotarr xs)
    | some (Json.obj fields) => rfl

/-- Witness for `generateSearchQueries_fallback`: a plain-prose response
parses to nothing, and the planner returns the original query "laptop
overheating fix" alone. -/
theorem generateSearchQueries_fallback_witness :
    (generateSearchQueries "laptop overheating fix" none).length ≤ 3 ∧
    generateSearchQueries "laptop overheating fix" none =
      [Json.str "laptop overheating fix"] :=
  ⟨generateSearchQueries_fallback.1 "laptop overheating fix" none,
   generateSearchQueries_fallback.2 "laptop overheating fix" none
     (fun _ h => Option.noConfusion h)⟩

